import Mathlib

/-!
# Verification of the image-block UI module (src/ui.js)

Shallow embedding of the logic of `src/ui.js`:

* `getResizedUrl` — the CDN URL rewriter (lines 343-371),
* `toggleStatus` — the status CSS-marker toggling (lines 287-293),
* `render` — the initial status selection (lines 102-110),
* `fillImage` — media element kind selection, attributes, srcset (lines 157-261).

JavaScript strings are modelled as Lean `String` (sequences of Unicode
scalar values); a function that can throw is modelled with `Option`,
where `none` stands for a thrown exception.  The JS string primitives
used by the source (`includes`, `split`, `join`, `decodeURIComponent`,
`JSON.stringify`, `TextEncoder.encode`) are embedded below with their
ECMAScript semantics.
-/

namespace ImageUi

/-! ## JS string primitives -/

/-- Whether `pat` occurs at the start of `s` (character prefix test,
the building block of `String.prototype.includes` and `split`). -/
def hasLead : List Char → List Char → Bool
  | _, [] => true
  | [], _ :: _ => false
  | c :: cs, d :: ds => c == d && hasLead cs ds

/-- Whether `pat` occurs somewhere inside `s` (substring occurrence). -/
def occursIn : List Char → List Char → Bool
  | [], pat => pat.isEmpty
  | c :: cs, pat => hasLead (c :: cs) pat || occursIn cs pat

/-- `String.prototype.includes` for a non-empty needle. -/
def jsIncludes (s pat : String) : Bool :=
  occursIn s.data pat.data

/-- Core of `String.prototype.split(sep)` for a non-empty separator:
leftmost, non-overlapping matches.  `skip` counts characters still to be
consumed as the tail of a previously matched separator; `acc` is the
current part, reversed. -/
def splitCore (sep : List Char) : List Char → Nat → List Char → List (List Char)
  | [], _, acc => [acc.reverse]
  | _ :: cs, skip + 1, acc => splitCore sep cs skip acc
  | c :: cs, 0, acc =>
    if hasLead (c :: cs) sep && !sep.isEmpty then
      acc.reverse :: splitCore sep cs (sep.length - 1) []
    else
      splitCore sep cs 0 (c :: acc)

/-- `String.prototype.split(sep)` for a non-empty separator. -/
def jsSplit (s sep : String) : List String :=
  (splitCore sep.data s.data 0 []).map (fun l => String.mk l)

/-- `Array.prototype.join(sep)` on an array of strings. -/
def arrayJoin (sep : String) : List String → String
  | [] => ""
  | [x] => x
  | x :: xs => x ++ sep ++ arrayJoin sep xs

/-- The regular-expression test `/suf$/.test(s)` for a literal suffix. -/
def endsWithStr (s suf : String) : Bool :=
  hasLead s.data.reverse suf.data.reverse

example : jsSplit "a/b/c" "/" = ["a", "b", "c"] := rfl
example : jsSplit "ab" "b" = ["a", ""] := rfl
example : jsSplit "" "b" = [""] := rfl
example : jsSplit "aaa" "aa" = ["", "a"] := rfl
example : jsSplit "host/a/b" "host/" = ["", "a/b"] := rfl
example : jsIncludes "xhosty" "host" = true := rfl
example : jsIncludes "xhosy" "host" = false := rfl
example : arrayJoin "/" ["a", "b"] = "a/b" := rfl
example : endsWithStr "x.mp4" ".mp4" = true := rfl
example : endsWithStr "x.mp41" ".mp4" = false := rfl

/-! ## `decodeURIComponent` (ECMA-262 `Decode` with an empty reserved set)

`none` models a thrown `URIError`.  A `%` escape is decoded to a byte;
a lead byte `>= 0x80` must be followed by the right number of escaped
continuation bytes forming a valid (shortest-form, non-surrogate,
`<= U+10FFFF`) UTF-8 sequence, otherwise `URIError` is thrown. -/

/-- Value of one hexadecimal digit (either case), if any; the code
points are 48-57 for `0`-`9`, 65-70 for `A`-`F`, 97-102 for `a`-`f`. -/
def hexDigitVal (c : Char) : Option Nat :=
  let n := c.toNat
  if 48 ≤ n ∧ n ≤ 57 then some (n - 48)
  else if 65 ≤ n ∧ n ≤ 70 then some (n - 55)
  else if 97 ≤ n ∧ n ≤ 102 then some (n - 87)
  else none

/-- Byte value of two hexadecimal digits. -/
def hexByte (h1 h2 : Char) : Option Nat :=
  match hexDigitVal h1, hexDigitVal h2 with
  | some a, some b => some (a * 16 + b)
  | _, _ => none

/-- Whether a byte is a UTF-8 continuation byte. -/
def contByte (b : Nat) : Bool :=
  decide (0x80 ≤ b ∧ b < 0xC0)

/-- Decode of a character list per `decodeURIComponent`. -/
def decodeChars : List Char → Option (List Char)
  | [] => some []
  | '%' :: h1 :: h2 :: rest =>
    match hexByte h1 h2 with
    | none => none
    | some b =>
      if b < 0x80 then
        (decodeChars rest).map (fun tail => Char.ofNat b :: tail)
      else if b < 0xC2 then
        -- unexpected continuation byte, or overlong lead 0xC0/0xC1
        none
      else if b < 0xE0 then
        match rest with
        | '%' :: g1 :: g2 :: rest2 =>
          match hexByte g1 g2 with
          | some b2 =>
            if contByte b2 then
              (decodeChars rest2).map
                (fun tail => Char.ofNat ((b - 0xC0) * 0x40 + (b2 - 0x80)) :: tail)
            else none
          | none => none
        | _ => none
      else if b < 0xF0 then
        match rest with
        | '%' :: g1 :: g2 :: '%' :: j1 :: j2 :: rest3 =>
          match hexByte g1 g2, hexByte j1 j2 with
          | some b2, some b3 =>
            if contByte b2 && contByte b3 &&
                !(b == 0xE0 && b2 < 0xA0) && !(b == 0xED && 0xA0 ≤ b2) then
              (decodeChars rest3).map
                (fun tail =>
                  Char.ofNat ((b - 0xE0) * 0x1000 + (b2 - 0x80) * 0x40 + (b3 - 0x80)) :: tail)
            else none
          | _, _ => none
        | _ => none
      else if b < 0xF5 then
        match rest with
        | '%' :: g1 :: g2 :: '%' :: j1 :: j2 :: '%' :: k1 :: k2 :: rest4 =>
          match hexByte g1 g2, hexByte j1 j2, hexByte k1 k2 with
          | some b2, some b3, some b4 =>
            if contByte b2 && contByte b3 && contByte b4 &&
                !(b == 0xF0 && b2 < 0x90) && !(b == 0xF4 && 0x90 ≤ b2) then
              (decodeChars rest4).map
                (fun tail =>
                  Char.ofNat ((b - 0xF0) * 0x40000 + (b2 - 0x80) * 0x1000 +
                    (b3 - 0x80) * 0x40 + (b4 - 0x80)) :: tail)
            else none
          | _, _, _ => none
        | _ => none
      else none
  | ['%'] => none
  | ['%', _] => none
  | c :: rest => (decodeChars rest).map (fun tail => c :: tail)

/-- `decodeURIComponent`; `none` models a thrown `URIError`. -/
def decodeURIComponent (s : String) : Option String :=
  (decodeChars s.data).map (fun cs => String.mk cs)

/-- `parts.map(decodeURIComponent)`: the first `URIError` aborts the map. -/
def mapDecode : List String → Option (List String)
  | [] => some []
  | s :: rest =>
    match decodeURIComponent s with
    | none => none
    | some d => (mapDecode rest).map (fun ds => d :: ds)

example : decodeURIComponent "a%2520b" = some "a%20b" := rfl
example : decodeURIComponent "a%20b" = some "a b" := rfl
example : decodeURIComponent "%" = none := rfl
example : decodeURIComponent "%2" = none := rfl
example : decodeURIComponent "%GG" = none := rfl
example : decodeURIComponent "%41%42" = some "AB" := rfl
example : decodeURIComponent "%C3%A9" = some "é" := rfl
example : decodeURIComponent "%E2%82%AC" = some "€" := rfl
example : decodeURIComponent "%F0%9F%98%80" = some "😀" := rfl
example : decodeURIComponent "%C0%80" = none := rfl
example : decodeURIComponent "%ED%A0%80" = none := rfl
example : decodeURIComponent "%F4%90%80%80" = none := rfl
example : decodeURIComponent "%C3" = none := rfl
example : decodeURIComponent "plain" = some "plain" := rfl

/-! ## `JSON.stringify` for the values the module serializes

The source (lines 335-341) documents the edit-request type as
`{ resize: { height?: number; width?: number; fit: ... } }`; the object
serialized at line 362 is `{ bucket, key, edits }`.  `JSON.stringify`
emits object properties in insertion order and escapes strings per
ECMA-404 quoting (`"` `\` and control characters); properties holding
`undefined` are omitted. -/

/-- Lowercase hexadecimal digit. -/
def hexDigitChar (n : Nat) : Char :=
  if n < 10 then Char.ofNat ('0'.toNat + n) else Char.ofNat ('a'.toNat + n - 10)

/-- Four lowercase hexadecimal digits, as in a `\uXXXX` escape. -/
def hex4 (n : Nat) : List Char :=
  let d0 := n / 4096 % 16
  let d1 := n / 256 % 16
  let d2 := n / 16 % 16
  let d3 := n % 16
  [hexDigitChar d0, hexDigitChar d1, hexDigitChar d2, hexDigitChar d3]

/-- `JSON.stringify` escaping of a single character. -/
def jsonEscapeChar (c : Char) : List Char :=
  if c = '"' then ['\\', '"']
  else if c = '\\' then ['\\', '\\']
  else if c = '\x08' then ['\\', 'b']
  else if c = '\x0c' then ['\\', 'f']
  else if c = '\n' then ['\\', 'n']
  else if c = '\r' then ['\\', 'r']
  else if c = '\t' then ['\\', 't']
  else if c.toNat < 0x20 then '\\' :: 'u' :: hex4 c.toNat
  else [c]

/-- `JSON.stringify` of a string value (quoted and escaped). -/
def jsonQuote (s : String) : String :=
  "\"" ++ String.mk (s.data.map jsonEscapeChar).flatten ++ "\""

/-- The `resize` member of an edit request; `none` models an absent
(`undefined`) property, omitted by `JSON.stringify`. -/
structure ResizeSpec where
  height : Option Int
  width : Option Int
  fit : String
deriving DecidableEq

/-- The `ImageEditRequest` type of the source (lines 335-341). -/
structure ImageEditRequest where
  resize : ResizeSpec
deriving DecidableEq

/-- `JSON.stringify` of the `resize` object, properties in the order of
the source's type declaration, absent members omitted. -/
def stringifyResize (r : ResizeSpec) : String :=
  "\x7b" ++
    arrayJoin ","
      ((match r.height with
        | some h => [jsonQuote "height" ++ ":" ++ toString h]
        | none => []) ++
       (match r.width with
        | some w => [jsonQuote "width" ++ ":" ++ toString w]
        | none => []) ++
       [jsonQuote "fit" ++ ":" ++ jsonQuote r.fit]) ++
  "\x7d"

/-- `JSON.stringify` of an edit request. -/
def stringifyEditRequest (e : ImageEditRequest) : String :=
  "\x7b" ++ jsonQuote "resize" ++ ":" ++ stringifyResize e.resize ++ "\x7d"

/-- `JSON.stringify(imageRequest)` for the object built at line 362:
`{ bucket: s3BucketName, key, edits: imageEditRequest }`. -/
def stringifyImageRequest (bucket key : String) (edit : ImageEditRequest) : String :=
  "\x7b" ++ jsonQuote "bucket" ++ ":" ++ jsonQuote bucket ++ "," ++
    jsonQuote "key" ++ ":" ++ jsonQuote key ++ "," ++
    jsonQuote "edits" ++ ":" ++ stringifyEditRequest edit ++ "\x7d"

example :
    stringifyEditRequest ⟨⟨none, some 640, "cover"⟩⟩ =
      "\x7b\"resize\":\x7b\"width\":640,\"fit\":\"cover\"\x7d\x7d" := rfl
example :
    stringifyImageRequest "ntmg-media" "a/b.png" ⟨⟨none, some 10, "cover"⟩⟩ =
      "\x7b\"bucket\":\"ntmg-media\",\"key\":\"a/b.png\",\"edits\":\x7b\"resize\":\x7b\"width\":10,\"fit\":\"cover\"\x7d\x7d\x7d" := rfl
example : jsonQuote "a\"b\\c" = "\"a\\\"b\\\\c\"" := rfl
example : jsonQuote "a\x01b" = "\"a\\u0001b\"" := rfl

/-! ## `TextEncoder.encode` (UTF-8) and base64 -/

/-- UTF-8 encoding of one Unicode scalar value. -/
def utf8EncodeChar (c : Char) : List Nat :=
  let n := c.toNat
  if n < 0x80 then [n]
  else if n < 0x800 then [0xC0 + n / 0x40, 0x80 + n % 0x40]
  else if n < 0x10000 then
    [0xE0 + n / 0x1000, 0x80 + n / 0x40 % 0x40, 0x80 + n % 0x40]
  else
    [0xF0 + n / 0x40000, 0x80 + n / 0x1000 % 0x40, 0x80 + n / 0x40 % 0x40, 0x80 + n % 0x40]

/-- `new TextEncoder().encode(s)`: the UTF-8 bytes of `s`. -/
def utf8Encode (s : String) : List Nat :=
  (s.data.map utf8EncodeChar).flatten

/-- The standard base64 alphabet. -/
def base64Alphabet : List Char :=
  "ABCDEFGHIJKLMNOPQRSTUVWXYZabcdefghijklmnopqrstuvwxyz0123456789+/".data

/-- Character for a 6-bit group. -/
def base64Char (n : Nat) : Char :=
  base64Alphabet.getD n 'A'

/-- Base64 encoding of a byte list, three bytes to four characters,
short final quantum padded with `=`. -/
def base64EncodeChars : List Nat → List Char
  | [] => []
  | [b0] => [base64Char (b0 / 4), base64Char (b0 % 4 * 16), '=', '=']
  | [b0, b1] =>
    [base64Char (b0 / 4), base64Char (b0 % 4 * 16 + b1 / 16), base64Char (b1 % 16 * 4), '=']
  | b0 :: b1 :: b2 :: rest =>
    [base64Char (b0 / 4), base64Char (b0 % 4 * 16 + b1 / 16),
     base64Char (b1 % 16 * 4 + b2 / 64), base64Char (b2 % 64)] ++
    base64EncodeChars rest

/-- Modelled from the spec: `src/base64.js` (imported by `src/ui.js` for
`base64FromByteArray`) is not under `src/`; the spec says the JSON text's
UTF-8 bytes are base64-encoded (section 4.2, step 6).  Standard base64
with `=` padding. -/
def base64FromByteArray (bs : List Nat) : String :=
  String.mk (base64EncodeChars bs)

/-- Value of a base64 alphabet character, if any (used to check the
spec-modelled encoder against a decoder by a round-trip theorem); the
code points are 65-90 for `A`-`Z`, 97-122 for `a`-`z`, 48-57 for the
digits, 43 for `+` and 47 for `/`. -/
def base64CharVal (c : Char) : Option Nat :=
  let n := c.toNat
  if 65 ≤ n ∧ n ≤ 90 then some (n - 65)
  else if 97 ≤ n ∧ n ≤ 122 then some (n - 71)
  else if 48 ≤ n ∧ n ≤ 57 then some (n + 4)
  else if n = 43 then some 62
  else if n = 47 then some 63
  else none

/-- Base64 decoding back to bytes (inverse of the encoder above). -/
def base64DecodeChars : List Char → Option (List Nat)
  | [] => some []
  | c0 :: c1 :: c2 :: c3 :: rest =>
    match rest with
    | [] =>
      match base64CharVal c0, base64CharVal c1 with
      | some v0, some v1 =>
        if c2 = '=' then
          if c3 = '=' then
            if v1 % 16 = 0 then some [v0 * 4 + v1 / 16] else none
          else none
        else
          match base64CharVal c2 with
          | some v2 =>
            if c3 = '=' then
              if v2 % 4 = 0 then some [v0 * 4 + v1 / 16, v1 % 16 * 16 + v2 / 4] else none
            else
              match base64CharVal c3 with
              | some v3 =>
                some [v0 * 4 + v1 / 16, v1 % 16 * 16 + v2 / 4, v2 % 4 * 64 + v3]
              | none => none
          | none => none
      | _, _ => none
    | r :: rs =>
      match base64CharVal c0, base64CharVal c1, base64CharVal c2, base64CharVal c3 with
      | some v0, some v1, some v2, some v3 =>
        (base64DecodeChars (r :: rs)).map
          (fun bsx => (v0 * 4 + v1 / 16) :: (v1 % 16 * 16 + v2 / 4) :: (v2 % 4 * 64 + v3) :: bsx)
      | _, _, _, _ => none
  | _ => none

example : base64FromByteArray [77, 97, 110] = "TWFu" := rfl
example : base64FromByteArray [77, 97] = "TWE=" := rfl
example : base64FromByteArray [77] = "TQ==" := rfl
example : base64DecodeChars "TWFu".data = some [77, 97, 110] := rfl
example : base64DecodeChars "TWE=".data = some [77, 97] := rfl
example : base64DecodeChars "TQ==".data = some [77] := rfl
example : utf8Encode "aé€" = [0x61, 0xC3, 0xA9, 0xE2, 0x82, 0xAC] := rfl

/-! ## The URL rewriter `getResizedUrl` (lines 343-371) -/

/-- CDN host constant of line 331. -/
def cloudfrontHostname : String := "https://d2obrjcl8a4u8e.cloudfront.net"

/-- Storage host constant of line 332. -/
def s3Hostname : String := "ntmg-media.s3.us-west-1.amazonaws.com"

/-- Bucket name constant of line 333. -/
def s3BucketName : String := "ntmg-media"

/-- `getResizedUrl(originalImageUrl, imageEditRequest)`, lines 343-371.
`none` models the `URIError` thrown by `decodeURIComponent` on a
malformed percent escape in a path segment. -/
def getResizedUrl (originalImageUrl : String) (imageEditRequest : ImageEditRequest) :
    Option String :=
  if originalImageUrl = "" then
    some ""
  else if !jsIncludes originalImageUrl s3Hostname then
    some originalImageUrl
  else
    match jsSplit originalImageUrl (s3Hostname ++ "/") with
    | [_, p1] =>
      match mapDecode (jsSplit p1 "/") with
      | none => none
      | some decodedParts =>
        let key := arrayJoin "/" decodedParts
        some (cloudfrontHostname ++ "/" ++
          base64FromByteArray (utf8Encode (stringifyImageRequest s3BucketName key imageEditRequest)))
    | _ => some originalImageUrl

example : getResizedUrl "" ⟨⟨none, some 1, "cover"⟩⟩ = some "" := rfl
example :
    getResizedUrl "https://example.com/x.png" ⟨⟨none, some 1, "cover"⟩⟩ =
      some "https://example.com/x.png" := rfl
example :
    getResizedUrl "https://ntmg-media.s3.us-west-1.amazonaws.com/%" ⟨⟨none, some 1, "cover"⟩⟩ =
      none := rfl
example :
    getResizedUrl "xntmg-media.s3.us-west-1.amazonaws.comy" ⟨⟨none, some 1, "cover"⟩⟩ =
      some "xntmg-media.s3.us-west-1.amazonaws.comy" := rfl

/-! ## Status toggling (`Ui.status`, lines 88-94; `toggleStatus`, lines 287-293)

An element's `classList` is modelled as its list of class tokens
(duplicate-free by construction of `DOMTokenList`, though no theorem
below needs that). -/

/-- `Ui.status.EMPTY`. -/
def statusEMPTY : String := "empty"

/-- `Ui.status.UPLOADING` (note the value is the string `"loading"`). -/
def statusUPLOADING : String := "loading"

/-- `Ui.status.FILLED`. -/
def statusFILLED : String := "filled"

/-- The own enumerable properties of the `Ui.status` object, in
insertion order (the order of the `for...in` loop of line 288). -/
def statusEntries : List String := [statusEMPTY, statusUPLOADING, statusFILLED]

/-- `this.CSS.wrapper` (line 72). -/
def cssWrapper : String := "image-tool"

/-- The wrapper marker class for a status value
(`` `${this.CSS.wrapper}--${Ui.status[statusType]}` ``, line 290). -/
def statusMarker (v : String) : String := cssWrapper ++ "--" ++ v

/-- `DOMTokenList.toggle(token, force)`: add the token when `force` is
true (no-op when present), remove it when `force` is false. -/
def classListToggle (l : List String) (token : String) (force : Bool) : List String :=
  if force then
    if l.contains token then l else l ++ [token]
  else
    l.filter (fun t => t ≠ token)

/-- `toggleStatus(status)`, lines 287-293: for every `Ui.status` member,
toggle its wrapper marker with force `status === Ui.status[statusType]`. -/
def toggleStatus (wrapper : List String) (status : String) : List String :=
  statusEntries.foldl
    (fun l v => classListToggle l (statusMarker v) (status == v)) wrapper

example : toggleStatus [] "empty" = ["image-tool--empty"] := rfl
example :
    toggleStatus ["image-tool", "image-tool--empty"] "loading" =
      ["image-tool", "image-tool--loading"] := rfl
example : toggleStatus ["image-tool--empty", "image-tool--filled"] "bogus" = [] := by decide

/-! ## `render` (lines 102-110) -/

/-- The saved tool data passed to `render`; `file` is `none` when
`toolData.file` is absent (falsy), and `some keys` when it is an object
with own enumerable keys `keys` (`Object.keys(toolData.file)`). -/
structure ToolData where
  file : Option (List String)

/-- The nodes the modelled operations touch: the wrapper element,
represented by its class list. -/
structure UiNodes where
  wrapper : List String
deriving DecidableEq

/-- `render(toolData)`, lines 102-110: choose EMPTY when the file is
absent or has no keys, UPLOADING otherwise, then return the wrapper. -/
def render (nodes : UiNodes) (toolData : ToolData) : UiNodes × List String :=
  let nodes' :=
    if (match toolData.file with
        | none => true
        | some keys => keys.length == 0) then
      { nodes with wrapper := toggleStatus nodes.wrapper statusEMPTY }
    else
      { nodes with wrapper := toggleStatus nodes.wrapper statusUPLOADING }
  (nodes', nodes'.wrapper)

/-! ## `fillImage` (lines 157-261)

The created media element is modelled by its tag name, its attribute
assignments in order, and the event the FILLED listener is attached to.
`none` models the `URIError` that `getResizedUrl` can propagate out of
the srcset construction. -/

/-- A value assigned to an element property in `make` (string or boolean). -/
inductive AttrVal where
  | str (s : String)
  | bool (b : Bool)
deriving DecidableEq

/-- The element composed by `fillImage`. -/
structure MediaSpec where
  tag : String
  attrs : List (String × AttrVal)
  eventName : String
deriving DecidableEq

/-- The edit request built for one srcset width (lines 176-181):
`{ resize: { width, fit: 'cover' } }`. -/
def editFor (width : Nat) : ImageEditRequest :=
  ⟨⟨none, some (Int.ofNat width), "cover"⟩⟩

/-- The fixed candidate widths of line 175. -/
def srcSetWidths : List Nat := [640, 750, 828, 1080]

/-- The `` `${resizedUrl} ${width}w` `` entries of lines 175-184; the
first `URIError` from `getResizedUrl` aborts the map. -/
def srcSetEntries (url : String) : List Nat → Option (List String)
  | [] => some []
  | w :: ws =>
    match getResizedUrl url (editFor w) with
    | none => none
    | some resizedUrl =>
      (srcSetEntries url ws).map (fun es => (resizedUrl ++ " " ++ toString w ++ "w") :: es)

/-- The srcset string (`.join(', ')`, line 184). -/
def srcSetFor (url : String) : Option String :=
  (srcSetEntries url srcSetWidths).map (arrayJoin ", ")

/-- `fillImage(url)`, lines 157-261, as the element specification it
composes (appending to the container is not modelled). -/
def fillImage (optimizeImages : Bool) (url : String) : Option MediaSpec :=
  let tag1 := if endsWithStr url ".mp4" then "VIDEO" else "IMG"
  let tag := if endsWithStr url ".mp3" then "AUDIO" else tag1
  let attrs0 := [("src", AttrVal.str url)]
  match (if optimizeImages then
          (srcSetFor url).map
            (fun s => attrs0 ++ [("srcset", AttrVal.str s), ("sizes", AttrVal.str "100vw")])
         else some attrs0) with
  | none => none
  | some attrs1 =>
    let step2 :=
      if tag = "VIDEO" then
        (attrs1 ++ [("playsinline", AttrVal.bool true), ("controls", AttrVal.bool true)],
         "loadeddata")
      else (attrs1, "load")
    let step3 :=
      if tag = "AUDIO" then
        (step2.1 ++ [("controls", AttrVal.bool true)], "loadeddata")
      else step2
    some ⟨tag, step3.1, step3.2⟩

/-- The load listener installed by `fillImage` (lines 249-258): it
toggles status FILLED on the wrapper (clearing the preloader background
is not modelled). -/
def fillImageLoadHandler (wrapper : List String) : List String :=
  toggleStatus wrapper statusFILLED

example :
    fillImage false "a.png" =
      some ⟨"IMG", [("src", AttrVal.str "a.png")], "load"⟩ := rfl
example :
    fillImage false "a.mp4" =
      some ⟨"VIDEO",
        [("src", AttrVal.str "a.mp4"), ("playsinline", AttrVal.bool true),
         ("controls", AttrVal.bool true)], "loadeddata"⟩ := rfl
example :
    fillImage false "a.mp3" =
      some ⟨"AUDIO", [("src", AttrVal.str "a.mp3"), ("controls", AttrVal.bool true)],
        "loadeddata"⟩ := rfl
example :
    fillImage true "a.mp4" =
      some ⟨"VIDEO",
        [("src", AttrVal.str "a.mp4"),
         ("srcset", AttrVal.str "a.mp4 640w, a.mp4 750w, a.mp4 828w, a.mp4 1080w"),
         ("sizes", AttrVal.str "100vw"),
         ("playsinline", AttrVal.bool true), ("controls", AttrVal.bool true)],
        "loadeddata"⟩ := rfl

/-! ## Host component (spec wording, for claim C4)

The source never extracts a host component; this definition follows the
spec's words ("the original URL's host exactly matches a configured
storage host") to compare the spec's invariant with the code. -/

/-- Host (authority) component of a URL per the spec's wording: the part
after `://`, up to the next `/`. -/
def urlHost (url : String) : String :=
  match jsSplit url "://" with
  | _ :: rest :: _ => String.mk (rest.data.takeWhile (fun c => c ≠ '/'))
  | _ => String.mk (url.data.takeWhile (fun c => c ≠ '/'))

example : urlHost "https://evil.com/a/b" = "evil.com" := rfl
example : urlHost "https://ntmg-media.s3.us-west-1.amazonaws.com/a" = s3Hostname := rfl

/-! ## Helper lemmas: JS string primitives -/

/-- `String.mk` of a string's data is the string itself. -/
theorem string_mk_data (s : String) : String.mk s.data = s := rfl

/-- Leading with a longer pattern implies leading with its front part. -/
theorem hasLead_append_left (a : List Char) :
    ∀ (l b : List Char), hasLead l (a ++ b) = true → hasLead l a = true := by
  induction a with
  | nil => intro l b _; cases l <;> rfl
  | cons x xs ih =>
    intro l b h
    cases l with
    | nil => simp [hasLead] at h
    | cons c cs =>
      simp only [List.cons_append, hasLead, Bool.and_eq_true] at h ⊢
      exact ⟨h.1, ih cs b h.2⟩

/-- An occurrence of `a ++ b` contains an occurrence of `a`. -/
theorem occursIn_append_left (l a b : List Char) (h : occursIn l (a ++ b) = true) :
    occursIn l a = true := by
  induction l with
  | nil =>
    simp only [occursIn, List.isEmpty_iff, List.append_eq_nil] at h ⊢
    exact h.1
  | cons c cs ih =>
    simp only [occursIn, Bool.or_eq_true] at h ⊢
    rcases h with h | h
    · exact Or.inl (hasLead_append_left a (c :: cs) b h)
    · exact Or.inr (ih h)

/-- Without an occurrence of the separator, `splitCore` yields a single
part consisting of everything. -/
theorem splitCore_of_not_occurs (sep : List Char) :
    ∀ (l acc : List Char), occursIn l sep = false →
      splitCore sep l 0 acc = [acc.reverse ++ l] := by
  intro l
  induction l with
  | nil => intro acc _; simp [splitCore]
  | cons c cs ih =>
    intro acc h
    simp only [occursIn, Bool.or_eq_false_iff] at h
    rw [splitCore, if_neg (by simp [h.1])]
    rw [ih (c :: acc) h.2]
    simp

/-- A string that does not contain the separator splits into itself. -/
theorem jsSplit_of_not_includes (s sep : String) (h : occursIn s.data sep.data = false) :
    jsSplit s sep = [s] := by
  rw [jsSplit, splitCore_of_not_occurs sep.data s.data [] h]
  simp [string_mk_data]

/-- A two-part split on `s3Hostname ++ "/"` forces the `includes`
check of line 348 to succeed. -/
theorem jsIncludes_of_split_pair (url p0 p1 : String)
    (h : jsSplit url (s3Hostname ++ "/") = [p0, p1]) :
    jsIncludes url s3Hostname = true := by
  cases hc : occursIn url.data s3Hostname.data with
  | true => exact hc
  | false =>
    exfalso
    cases ho : occursIn url.data (s3Hostname ++ "/").data with
    | false =>
      rw [jsSplit_of_not_includes url _ ho] at h
      simp at h
    | true =>
      rw [String.data_append] at ho
      rw [occursIn_append_left url.data s3Hostname.data "/".data ho] at hc
      exact Bool.noConfusion hc

/-- A two-part split forces the URL to be non-empty. -/
theorem ne_empty_of_split_pair (url p0 p1 : String)
    (h : jsSplit url (s3Hostname ++ "/") = [p0, p1]) : url ≠ "" := by
  intro he
  subst he
  rw [show jsSplit "" (s3Hostname ++ "/") = [""] from rfl] at h
  simp at h

/-- A failing `parts.map(decodeURIComponent)` names a failing part. -/
theorem mapDecode_none_exists (l : List String) (h : mapDecode l = none) :
    ∃ s ∈ l, decodeURIComponent s = none := by
  induction l with
  | nil => simp [mapDecode] at h
  | cons s rest ih =>
    rw [mapDecode] at h
    cases hd : decodeURIComponent s with
    | none => exact ⟨s, by simp, hd⟩
    | some d =>
      rw [hd] at h
      simp only [Option.map_eq_none'] at h
      obtain ⟨x, hx, hxd⟩ := ih h
      exact ⟨x, by simp [hx], hxd⟩

/-! ## Helper lemmas: UTF-8 bytes and the base64 round-trip -/

/-- Every Unicode scalar value is below `0x110000`. -/
theorem char_toNat_lt (c : Char) : c.toNat < 1114112 := by
  have h := c.valid
  unfold UInt32.isValidChar Nat.isValidChar at h
  unfold Char.toNat
  rcases h with h | ⟨_, h⟩ <;> omega

/-- UTF-8 encoding produces bytes. -/
theorem utf8EncodeChar_lt (c : Char) : ∀ b ∈ utf8EncodeChar c, b < 256 := by
  intro b hb
  have hc : c.toNat < 1114112 := char_toNat_lt c
  simp only [utf8EncodeChar] at hb
  split_ifs at hb with h1 h2 h3
  · simp only [List.mem_singleton] at hb
    omega
  · simp only [List.mem_cons, List.not_mem_nil, or_false] at hb
    rcases hb with rfl | rfl <;> omega
  · simp only [List.mem_cons, List.not_mem_nil, or_false] at hb
    rcases hb with rfl | rfl | rfl <;> omega
  · simp only [List.mem_cons, List.not_mem_nil, or_false] at hb
    rcases hb with rfl | rfl | rfl | rfl <;> omega

/-- The UTF-8 encoding of a string is a byte list. -/
theorem utf8Encode_lt (s : String) : ∀ b ∈ utf8Encode s, b < 256 := by
  intro b hb
  unfold utf8Encode at hb
  simp only [List.mem_flatten, List.mem_map] at hb
  obtain ⟨bs, ⟨c, _, rfl⟩, hbbs⟩ := hb
  exact utf8EncodeChar_lt c b hbbs

/-- The decoder inverts the alphabet map on 6-bit values. -/
theorem base64CharVal_base64Char : ∀ v, v < 64 → base64CharVal (base64Char v) = some v := by
  decide

/-- No 6-bit value encodes to the padding character. -/
theorem base64Char_ne_pad : ∀ v, v < 64 → base64Char v ≠ '=' := by
  decide

/-- The encoding of a non-empty byte list starts with a character. -/
theorem base64EncodeChars_cons (x : Nat) (xs : List Nat) :
    ∃ c cs, base64EncodeChars (x :: xs) = c :: cs := by
  match xs with
  | [] => exact ⟨_, _, rfl⟩
  | [y] => exact ⟨_, _, rfl⟩
  | y :: z :: rest => exact ⟨_, _, rfl⟩

/-- Round-trip: the decoder inverts the spec-modelled base64 encoder on
byte lists (a validation of the model of the missing `src/base64.js`). -/
theorem base64_decode_encode (bs : List Nat) :
    (∀ b ∈ bs, b < 256) → base64DecodeChars (base64EncodeChars bs) = some bs := by
  induction bs using base64EncodeChars.induct with
  | case1 => intro _; rfl
  | case2 b0 =>
    intro h
    have hb0 : b0 < 256 := h b0 (by simp)
    rw [base64EncodeChars, base64DecodeChars]
    simp only [base64CharVal_base64Char _ (show b0 / 4 < 64 by omega),
      base64CharVal_base64Char _ (show b0 % 4 * 16 < 64 by omega),
      show b0 % 4 * 16 % 16 = 0 from by omega, reduceIte,
      Option.some.injEq, List.cons.injEq, and_true]
    omega
  | case3 b0 b1 =>
    intro h
    have hb0 : b0 < 256 := h b0 (by simp)
    have hb1 : b1 < 256 := h b1 (by simp)
    rw [base64EncodeChars, base64DecodeChars]
    simp only [base64CharVal_base64Char _ (show b0 / 4 < 64 by omega),
      base64CharVal_base64Char _ (show b0 % 4 * 16 + b1 / 16 < 64 by omega),
      base64CharVal_base64Char _ (show b1 % 16 * 4 < 64 by omega),
      base64Char_ne_pad _ (show b1 % 16 * 4 < 64 by omega),
      show b1 % 16 * 4 % 4 = 0 from by omega, reduceIte,
      Option.some.injEq, List.cons.injEq, and_true]
    omega
  | case4 b0 b1 b2 rest ih =>
    intro h
    have hb0 : b0 < 256 := h b0 (by simp)
    have hb1 : b1 < 256 := h b1 (by simp)
    have hb2 : b2 < 256 := h b2 (by simp)
    have hrest : ∀ b ∈ rest, b < 256 := fun b hb => h b (by simp [hb])
    rw [base64EncodeChars]
    cases rest with
    | nil =>
      rw [show (base64EncodeChars [] : List Char) = [] from rfl, List.append_nil,
        base64DecodeChars]
      simp only [base64CharVal_base64Char _ (show b0 / 4 < 64 by omega),
        base64CharVal_base64Char _ (show b0 % 4 * 16 + b1 / 16 < 64 by omega),
        base64CharVal_base64Char _ (show b1 % 16 * 4 + b2 / 64 < 64 by omega),
        base64CharVal_base64Char _ (show b2 % 64 < 64 by omega),
        base64Char_ne_pad _ (show b1 % 16 * 4 + b2 / 64 < 64 by omega),
        base64Char_ne_pad _ (show b2 % 64 < 64 by omega), reduceIte,
        Option.some.injEq, List.cons.injEq, and_true]
      omega
    | cons r rs =>
      obtain ⟨c, cs, hshape⟩ := base64EncodeChars_cons r rs
      rw [hshape]
      simp only [List.cons_append, List.nil_append]
      rw [base64DecodeChars]
      simp only [base64CharVal_base64Char _ (show b0 / 4 < 64 by omega),
        base64CharVal_base64Char _ (show b0 % 4 * 16 + b1 / 16 < 64 by omega),
        base64CharVal_base64Char _ (show b1 % 16 * 4 + b2 / 64 < 64 by omega),
        base64CharVal_base64Char _ (show b2 % 64 < 64 by omega)]
      rw [← hshape, ih hrest]
      simp only [Option.map_some', Option.some.injEq, List.cons.injEq, and_true]
      omega

/-! ## Helper lemmas: class-list toggling -/

/-- Unfolding of the `for...in` loop of `toggleStatus` into the three
toggles, in `Ui.status` insertion order. -/
theorem toggleStatus_eq (l : List String) (s : String) :
    toggleStatus l s =
      classListToggle
        (classListToggle (classListToggle l (statusMarker statusEMPTY) (s == statusEMPTY))
          (statusMarker statusUPLOADING) (s == statusUPLOADING))
        (statusMarker statusFILLED) (s == statusFILLED) := rfl

/-- Membership after one toggle: force `true` adds the token, force
`false` removes it, other tokens are untouched. -/
theorem mem_classListToggle (l : List String) (t u : String) (f : Bool) :
    u ∈ classListToggle l t f ↔ cond f (u ∈ l ∨ u = t) (u ∈ l ∧ u ≠ t) := by
  cases f with
  | false => simp [classListToggle, List.mem_filter]
  | true =>
    simp only [classListToggle, if_pos, cond_true]
    split
    · rename_i hmem
      constructor
      · exact Or.inl
      · rintro (h | rfl)
        · exact h
        · exact List.mem_of_elem_eq_true hmem
    · simp [List.mem_append]

/-- After `toggleStatus` with a status value, a status marker is present
iff it is the marker of that value. -/
theorem statusMarker_mem_toggleStatus (l : List String) (s : String) (hs : s ∈ statusEntries)
    (v : String) (hv : v ∈ statusEntries) :
    statusMarker v ∈ toggleStatus l s ↔ v = s := by
  fin_cases hs <;> fin_cases hv <;>
    rw [toggleStatus_eq] <;>
    simp [mem_classListToggle, statusMarker, cssWrapper, statusEMPTY, statusUPLOADING,
      statusFILLED]

/-- After `toggleStatus` with a value outside the enum, no status marker
is present. -/
theorem statusMarker_not_mem_toggleStatus (l : List String) (s : String)
    (h1 : s ≠ statusEMPTY) (h2 : s ≠ statusUPLOADING) (h3 : s ≠ statusFILLED)
    (v : String) (hv : v ∈ statusEntries) :
    statusMarker v ∉ toggleStatus l s := by
  have b1 : (s == statusEMPTY) = false := by simp [h1]
  have b2 : (s == statusUPLOADING) = false := by simp [h2]
  have b3 : (s == statusFILLED) = false := by simp [h3]
  rw [toggleStatus_eq, b1, b2, b3]
  fin_cases hv <;>
    simp [mem_classListToggle, statusMarker, cssWrapper, statusEMPTY, statusUPLOADING,
      statusFILLED]

/-- C2: for every sequence of `toggleStatus` calls with arguments from
the three-value status enum, after each call exactly one of the three
status CSS markers is on the wrapper, namely the one of the most recent
argument (the per-call form quantifies over every reachable class list,
so it covers every sequence). -/
theorem toggleStatus_exactly_one (l : List String) (s : String) (hs : s ∈ statusEntries) :
    ∀ v ∈ statusEntries, (statusMarker v ∈ toggleStatus l s ↔ v = s) :=
  fun v hv => statusMarker_mem_toggleStatus l s hs v hv

theorem toggleStatus_exactly_one_witness :
    ("empty" : String) ∈ statusEntries ∧
      (statusMarker "empty" ∈ toggleStatus ["image-tool", "image-tool--filled"] "empty" ↔
        "empty" = "empty") ∧
      (statusMarker "filled" ∈ toggleStatus ["image-tool", "image-tool--filled"] "empty" ↔
        "filled" = "empty") :=
  ⟨by decide,
   toggleStatus_exactly_one ["image-tool", "image-tool--filled"] "empty" (by decide)
     "empty" (by decide),
   toggleStatus_exactly_one ["image-tool", "image-tool--filled"] "empty" (by decide)
     "filled" (by decide)⟩

/-- C9: for every argument not equal to any of the three status enum
values, `toggleStatus` removes all three status markers from the
wrapper; the operation is total (the model never fails). -/
theorem toggleStatus_unknown_clears (l : List String) (s : String)
    (h1 : s ≠ statusEMPTY) (h2 : s ≠ statusUPLOADING) (h3 : s ≠ statusFILLED) :
    ∀ v ∈ statusEntries, statusMarker v ∉ toggleStatus l s :=
  fun v hv => statusMarker_not_mem_toggleStatus l s h1 h2 h3 v hv

theorem toggleStatus_unknown_clears_witness :
    statusMarker "empty" ∉
      toggleStatus ["image-tool--empty", "image-tool--loading", "image-tool--filled"] "bogus" :=
  toggleStatus_unknown_clears ["image-tool--empty", "image-tool--loading", "image-tool--filled"]
    "bogus" (by decide) (by decide) (by decide) "empty" (by decide)

/-- C10: `render` sets status EMPTY when `toolData.file` is absent or
has no own keys, UPLOADING otherwise, and returns the wrapper element. -/
theorem render_status (nodes : UiNodes) (td : ToolData) :
    (render nodes td).2 = (render nodes td).1.wrapper ∧
    ((td.file = none ∨ td.file = some []) →
      (render nodes td).1.wrapper = toggleStatus nodes.wrapper statusEMPTY ∧
      statusMarker statusEMPTY ∈ (render nodes td).1.wrapper ∧
      statusMarker statusUPLOADING ∉ (render nodes td).1.wrapper ∧
      statusMarker statusFILLED ∉ (render nodes td).1.wrapper) ∧
    (∀ k ks, td.file = some (k :: ks) →
      (render nodes td).1.wrapper = toggleStatus nodes.wrapper statusUPLOADING ∧
      statusMarker statusUPLOADING ∈ (render nodes td).1.wrapper ∧
      statusMarker statusEMPTY ∉ (render nodes td).1.wrapper ∧
      statusMarker statusFILLED ∉ (render nodes td).1.wrapper) := by
  refine ⟨rfl, ?_, ?_⟩
  · rintro (hf | hf) <;>
      · have hw : (render nodes td).1.wrapper = toggleStatus nodes.wrapper statusEMPTY := by
          simp [render, hf]
        refine ⟨hw, ?_, ?_, ?_⟩ <;> rw [hw]
        · exact (statusMarker_mem_toggleStatus _ _ (by decide) _ (by decide)).mpr rfl
        · intro hmem
          exact absurd ((statusMarker_mem_toggleStatus _ _ (by decide) _ (by decide)).mp hmem)
            (by decide)
        · intro hmem
          exact absurd ((statusMarker_mem_toggleStatus _ _ (by decide) _ (by decide)).mp hmem)
            (by decide)
  · intro k ks hf
    have hw : (render nodes td).1.wrapper = toggleStatus nodes.wrapper statusUPLOADING := by
      simp [render, hf]
    refine ⟨hw, ?_, ?_, ?_⟩ <;> rw [hw]
    · exact (statusMarker_mem_toggleStatus _ _ (by decide) _ (by decide)).mpr rfl
    · intro hmem
      exact absurd ((statusMarker_mem_toggleStatus _ _ (by decide) _ (by decide)).mp hmem)
        (by decide)
    · intro hmem
      exact absurd ((statusMarker_mem_toggleStatus _ _ (by decide) _ (by decide)).mp hmem)
        (by decide)

/-- A character list starting with `'4'`-lead cannot also start with a
`'3'`-lead (helper for the suffix tests). -/
theorem hasLead_four_ne_three (R : List Char) (h : hasLead R ['4', 'p', 'm', '.'] = true) :
    hasLead R ['3', 'p', 'm', '.'] = false := by
  cases R with
  | nil => exact absurd h (by decide)
  | cons c cs =>
    simp only [hasLead, Bool.and_eq_true] at h
    have hc : c = '4' := by simpa using h.1
    subst hc
    simp [hasLead]

/-- A URL ending in `.mp4` does not end in `.mp3` (the two regex tests
of lines 163-168 cannot both succeed). -/
theorem endsWith_mp4_not_mp3 (url : String) (h : endsWithStr url ".mp4" = true) :
    endsWithStr url ".mp3" = false :=
  hasLead_four_ne_three url.data.reverse h

/-- C7: `fillImage` selects the element kind by URL suffix (`.mp4` →
video, `.mp3` → audio, anything else → image), gives video/audio the
`controls` attribute (video additionally `playsinline`), listens on
`loadeddata` for video/audio and on `load` for images, and the installed
listener marks status FILLED. -/
theorem fillImage_kind (opt : Bool) (url : String) (spec : MediaSpec)
    (h : fillImage opt url = some spec) :
    (endsWithStr url ".mp4" = true →
      spec.tag = "VIDEO" ∧ ("controls", AttrVal.bool true) ∈ spec.attrs ∧
      ("playsinline", AttrVal.bool true) ∈ spec.attrs ∧ spec.eventName = "loadeddata") ∧
    (endsWithStr url ".mp3" = true →
      spec.tag = "AUDIO" ∧ ("controls", AttrVal.bool true) ∈ spec.attrs ∧
      spec.eventName = "loadeddata") ∧
    (endsWithStr url ".mp4" = false → endsWithStr url ".mp3" = false →
      spec.tag = "IMG" ∧ spec.eventName = "load") ∧
    (∀ w, statusMarker statusFILLED ∈ fillImageLoadHandler w) := by
  have hfilled : ∀ w, statusMarker statusFILLED ∈ fillImageLoadHandler w := by
    intro w
    exact (statusMarker_mem_toggleStatus w statusFILLED (by decide) statusFILLED
      (by decide)).mpr rfl
  cases h4 : endsWithStr url ".mp4" with
  | true =>
    have h3 : endsWithStr url ".mp3" = false := endsWith_mp4_not_mp3 url h4
    rw [fillImage, h4, h3] at h
    simp only [if_true, if_false, Bool.false_eq_true] at h
    refine ⟨fun _ => ?_, ?_, ?_, hfilled⟩
    · cases hm : (if opt = true then
          Option.map
            (fun s => [("src", AttrVal.str url)] ++
              [("srcset", AttrVal.str s), ("sizes", AttrVal.str "100vw")]) (srcSetFor url)
        else some [("src", AttrVal.str url)]) with
      | none => rw [hm] at h; exact absurd h (by simp)
      | some attrs1 =>
        rw [hm] at h
        simp only [Option.some.injEq] at h
        subst h
        refine ⟨by simp, by simp, by simp, by simp⟩
    · intro hc
      rw [h3] at hc
      exact absurd hc (by decide)
    · intro hc
      exact absurd hc (by decide)
  | false =>
    cases h3 : endsWithStr url ".mp3" with
    | true =>
      rw [fillImage, h4, h3] at h
      simp only [if_true, if_false, Bool.false_eq_true] at h
      refine ⟨?_, fun _ => ?_, ?_, hfilled⟩
      · intro hc
        exact absurd hc (by decide)
      · cases hm : (if opt = true then
            Option.map
              (fun s => [("src", AttrVal.str url)] ++
                [("srcset", AttrVal.str s), ("sizes", AttrVal.str "100vw")]) (srcSetFor url)
          else some [("src", AttrVal.str url)]) with
        | none => rw [hm] at h; exact absurd h (by simp)
        | some attrs1 =>
          rw [hm] at h
          simp only [Option.some.injEq] at h
          subst h
          refine ⟨by simp, by simp, by simp⟩
      · intro _ hc
        exact absurd hc (by decide)
    | false =>
      rw [fillImage, h4, h3] at h
      simp only [if_true, if_false, Bool.false_eq_true] at h
      refine ⟨?_, ?_, fun _ _ => ?_, hfilled⟩
      · intro hc
        exact absurd hc (by decide)
      · intro hc
        exact absurd hc (by decide)
      · cases hm : (if opt = true then
            Option.map
              (fun s => [("src", AttrVal.str url)] ++
                [("srcset", AttrVal.str s), ("sizes", AttrVal.str "100vw")]) (srcSetFor url)
          else some [("src", AttrVal.str url)]) with
        | none => rw [hm] at h; exact absurd h (by simp)
        | some attrs1 =>
          rw [hm] at h
          simp only [Option.some.injEq] at h
          subst h
          exact ⟨by simp, by simp⟩

theorem fillImage_kind_witness :
    (fillImage false "a.mp4" =
        some ⟨"VIDEO",
          [("src", AttrVal.str "a.mp4"), ("playsinline", AttrVal.bool true),
           ("controls", AttrVal.bool true)], "loadeddata"⟩) ∧
    (⟨"VIDEO",
        [("src", AttrVal.str "a.mp4"), ("playsinline", AttrVal.bool true),
         ("controls", AttrVal.bool true)], "loadeddata"⟩ : MediaSpec).tag = "VIDEO" ∧
    (⟨"VIDEO",
        [("src", AttrVal.str "a.mp4"), ("playsinline", AttrVal.bool true),
         ("controls", AttrVal.bool true)], "loadeddata"⟩ : MediaSpec).eventName = "loadeddata" :=
  ⟨by decide,
   ((fillImage_kind false "a.mp4" _ (by decide)).1 (by decide)).1,
   ((fillImage_kind false "a.mp4" _ (by decide)).1 (by decide)).2.2.2⟩

/-- C8 counterexample: with the responsive-image flag enabled, a URL
ending in `.mp4` yields a VIDEO element that nevertheless carries
`srcset` and `sizes` — the source attaches them before the tag-specific
blocks, for every element kind. -/
theorem fillImage_video_gets_srcset :
    fillImage true "a.mp4" =
      some ⟨"VIDEO",
        [("src", AttrVal.str "a.mp4"),
         ("srcset", AttrVal.str "a.mp4 640w, a.mp4 750w, a.mp4 828w, a.mp4 1080w"),
         ("sizes", AttrVal.str "100vw"),
         ("playsinline", AttrVal.bool true), ("controls", AttrVal.bool true)],
        "loadeddata"⟩ ∧
    ("srcset", AttrVal.str "a.mp4 640w, a.mp4 750w, a.mp4 828w, a.mp4 1080w") ∈
      ([("src", AttrVal.str "a.mp4"),
        ("srcset", AttrVal.str "a.mp4 640w, a.mp4 750w, a.mp4 828w, a.mp4 1080w"),
        ("sizes", AttrVal.str "100vw"),
        ("playsinline", AttrVal.bool true), ("controls", AttrVal.bool true)] :
        List (String × AttrVal)) := by
  exact ⟨by decide, by decide⟩

/-- Joining the width suffix: the `` `${resizedUrl} ${width}w` `` string
as one literal (helper to state srcset entries readably). -/
theorem append_width_suffix (r s : String) (n : Nat)
    (hs : " " ++ (toString n ++ "w") = s) :
    r ++ " " ++ toString n ++ "w" = r ++ s := by
  rw [String.append_assoc, String.append_assoc, hs]

/-- C8 amended: when `optimizeImages` is enabled the element — whatever
its kind — carries a `srcset` of the candidate URLs at widths
640, 750, 828, 1080 (each built via `getResizedUrl`, suffixed with
`<width>w`, joined in that order) and a `sizes` hint of `100vw`; when
the flag is disabled, neither attribute is attached. -/
theorem fillImage_srcset (opt : Bool) (url : String) (spec : MediaSpec)
    (h : fillImage opt url = some spec) :
    (opt = true →
      ∃ s, srcSetFor url = some s ∧
        ("srcset", AttrVal.str s) ∈ spec.attrs ∧
        ("sizes", AttrVal.str "100vw") ∈ spec.attrs) ∧
    (opt = false →
      (∀ v, ("srcset", v) ∉ spec.attrs) ∧ (∀ v, ("sizes", v) ∉ spec.attrs)) ∧
    (∀ r640 r750 r828 r1080,
      getResizedUrl url (editFor 640) = some r640 →
      getResizedUrl url (editFor 750) = some r750 →
      getResizedUrl url (editFor 828) = some r828 →
      getResizedUrl url (editFor 1080) = some r1080 →
      srcSetFor url =
        some (arrayJoin ", "
          [r640 ++ " 640w", r750 ++ " 750w", r828 ++ " 828w", r1080 ++ " 1080w"])) := by
  refine ⟨?_, ?_, ?_⟩
  · intro hopt
    subst hopt
    rw [fillImage, if_pos rfl] at h
    cases hs : srcSetFor url with
    | none => rw [hs] at h; exact absurd h (by simp)
    | some s =>
      rw [hs] at h
      simp only [Option.map_some'] at h
      simp only [Option.some.injEq] at h
      subst h
      refine ⟨s, rfl, ?_, ?_⟩ <;>
        · simp only [MediaSpec.attrs]
          cases endsWithStr url ".mp4" <;> cases endsWithStr url ".mp3" <;> simp
  · intro hopt
    subst hopt
    rw [fillImage, if_neg (by decide)] at h
    simp only [Option.some.injEq] at h
    subst h
    constructor <;>
      · intro v
        simp only [MediaSpec.attrs]
        cases endsWithStr url ".mp4" <;> cases endsWithStr url ".mp3" <;> simp
  · intro r640 r750 r828 r1080 h0 h1 h2 h3
    rw [srcSetFor, srcSetWidths, srcSetEntries, h0, srcSetEntries, h1, srcSetEntries, h2,
      srcSetEntries, h3, srcSetEntries]
    simp only [Option.map_some']
    rw [append_width_suffix r640 " 640w" 640 rfl, append_width_suffix r750 " 750w" 750 rfl,
      append_width_suffix r828 " 828w" 828 rfl, append_width_suffix r1080 " 1080w" 1080 rfl]

theorem fillImage_srcset_witness :
    (∃ s, srcSetFor "u.png" = some s ∧
      ("srcset", AttrVal.str s) ∈
        (⟨"IMG",
          [("src", AttrVal.str "u.png"),
           ("srcset", AttrVal.str "u.png 640w, u.png 750w, u.png 828w, u.png 1080w"),
           ("sizes", AttrVal.str "100vw")], "load"⟩ : MediaSpec).attrs ∧
      ("sizes", AttrVal.str "100vw") ∈
        (⟨"IMG",
          [("src", AttrVal.str "u.png"),
           ("srcset", AttrVal.str "u.png 640w, u.png 750w, u.png 828w, u.png 1080w"),
           ("sizes", AttrVal.str "100vw")], "load"⟩ : MediaSpec).attrs) ∧
    srcSetFor "u.png" =
      some (arrayJoin ", "
        ["u.png 640w", "u.png 750w", "u.png 828w", "u.png 1080w"]) :=
  ⟨(fillImage_srcset true "u.png"
      ⟨"IMG",
        [("src", AttrVal.str "u.png"),
         ("srcset", AttrVal.str "u.png 640w, u.png 750w, u.png 828w, u.png 1080w"),
         ("sizes", AttrVal.str "100vw")], "load"⟩ (by decide)).1 rfl,
   (fillImage_srcset true "u.png"
      ⟨"IMG",
        [("src", AttrVal.str "u.png"),
         ("srcset", AttrVal.str "u.png 640w, u.png 750w, u.png 828w, u.png 1080w"),
         ("sizes", AttrVal.str "100vw")], "load"⟩ (by decide)).2.2
     "u.png" "u.png" "u.png" "u.png" (by decide) (by decide) (by decide) (by decide)⟩

theorem render_status_witness :
    ((render ⟨["image-tool"]⟩ ⟨none⟩).2 = (render ⟨["image-tool"]⟩ ⟨none⟩).1.wrapper ∧
      statusMarker statusEMPTY ∈ (render ⟨["image-tool"]⟩ ⟨none⟩).1.wrapper) ∧
    statusMarker statusUPLOADING ∈ (render ⟨["image-tool"]⟩ ⟨some ["url"]⟩).1.wrapper :=
  ⟨⟨(render_status ⟨["image-tool"]⟩ ⟨none⟩).1,
    ((render_status ⟨["image-tool"]⟩ ⟨none⟩).2.1 (Or.inl rfl)).2.1⟩,
   ((render_status ⟨["image-tool"]⟩ ⟨some ["url"]⟩).2.2 "url" [] rfl).2.1⟩

/-- C6: applied to the empty string, `getResizedUrl` returns the empty
string for every edit request (line 344-346). -/
theorem getResizedUrl_empty_input (edit : ImageEditRequest) :
    getResizedUrl "" edit = some "" := rfl

/-- C5: `getResizedUrl` passes the URL through unchanged when the URL
does not contain the storage-host substring, and when it does but the
split on `<storage-host>/` does not yield exactly two parts. -/
theorem getResizedUrl_passthrough (url : String) (edit : ImageEditRequest) (hne : url ≠ "") :
    (jsIncludes url s3Hostname = false → getResizedUrl url edit = some url) ∧
    (jsIncludes url s3Hostname = true →
      (jsSplit url (s3Hostname ++ "/")).length ≠ 2 → getResizedUrl url edit = some url) := by
  constructor
  · intro hinc
    rw [getResizedUrl, if_neg hne, hinc]
    simp
  · intro hinc hlen
    rw [getResizedUrl, if_neg hne, hinc]
    simp only [Bool.not_true]
    rw [if_neg (by decide)]
    rcases hs : jsSplit url (s3Hostname ++ "/") with - | ⟨a, - | ⟨b, - | ⟨c, rest⟩⟩⟩
    · rfl
    · rfl
    · exact absurd (by rw [hs]; rfl : (jsSplit url (s3Hostname ++ "/")).length = 2) hlen
    · rfl

theorem getResizedUrl_passthrough_witness :
    getResizedUrl "https://example.com/x.png" ⟨⟨none, some 640, "cover"⟩⟩ =
        some "https://example.com/x.png" ∧
    getResizedUrl
        "https://ntmg-media.s3.us-west-1.amazonaws.com/a/ntmg-media.s3.us-west-1.amazonaws.com/b"
        ⟨⟨none, some 640, "cover"⟩⟩ =
      some
        "https://ntmg-media.s3.us-west-1.amazonaws.com/a/ntmg-media.s3.us-west-1.amazonaws.com/b" :=
  ⟨(getResizedUrl_passthrough "https://example.com/x.png" ⟨⟨none, some 640, "cover"⟩⟩
      (by decide)).1 (by decide),
   (getResizedUrl_passthrough
      "https://ntmg-media.s3.us-west-1.amazonaws.com/a/ntmg-media.s3.us-west-1.amazonaws.com/b"
      ⟨⟨none, some 640, "cover"⟩⟩ (by decide)).2 (by decide) (by decide)⟩

/-- C4 counterexample: a URL whose host component is `evil.com` — not
the storage host, which only occurs in the path — is still rewritten,
because the code keys on substring containment (line 348), not on the
host component. -/
theorem getResizedUrl_rewrites_foreign_host :
    urlHost "https://evil.com/ntmg-media.s3.us-west-1.amazonaws.com/foo" = "evil.com" ∧
    urlHost "https://evil.com/ntmg-media.s3.us-west-1.amazonaws.com/foo" ≠ s3Hostname ∧
    "https://evil.com/ntmg-media.s3.us-west-1.amazonaws.com/foo" ≠ "" ∧
    getResizedUrl "https://evil.com/ntmg-media.s3.us-west-1.amazonaws.com/foo"
        ⟨⟨none, some 640, "cover"⟩⟩ ≠
      some "https://evil.com/ntmg-media.s3.us-west-1.amazonaws.com/foo" :=
  ⟨rfl, by decide, by decide, by decide⟩

/-- C4 amended: the rewrite trigger is substring containment, not host
equality — every non-empty URL that does not contain the storage-host
substring anywhere is returned unchanged (a URL containing it in a
non-host position may still be rewritten, as the counterexample shows). -/
theorem getResizedUrl_foreign_passthrough (url : String) (edit : ImageEditRequest)
    (hne : url ≠ "") (hni : jsIncludes url s3Hostname = false) :
    getResizedUrl url edit = some url := by
  rw [getResizedUrl, if_neg hne, hni]
  simp

theorem getResizedUrl_foreign_passthrough_witness :
    getResizedUrl "https://example.org/pic.png" ⟨⟨none, some 750, "cover"⟩⟩ =
      some "https://example.org/pic.png" :=
  getResizedUrl_foreign_passthrough "https://example.org/pic.png" ⟨⟨none, some 750, "cover"⟩⟩
    (by decide) (by decide)

/-- C3 counterexample: `getResizedUrl` is not exception-free — a storage
URL whose key contains a malformed percent escape makes
`decodeURIComponent` throw `URIError` (modelled by `none`), instead of
degrading to passthrough. -/
theorem getResizedUrl_throws_on_malformed_escape :
    getResizedUrl "https://ntmg-media.s3.us-west-1.amazonaws.com/%"
      ⟨⟨none, some 640, "cover"⟩⟩ = none := rfl

/-- C3 amended: `getResizedUrl` raises no error except when the URL
passes the containment and two-part-split checks and some path segment
of the key carries a malformed percent escape; every other malformed
input degrades to passthrough (or the empty string). -/
theorem getResizedUrl_none_implies_bad_escape (url : String) (edit : ImageEditRequest)
    (h : getResizedUrl url edit = none) :
    ∃ p0 p1, jsSplit url (s3Hostname ++ "/") = [p0, p1] ∧
      ∃ seg ∈ jsSplit p1 "/", decodeURIComponent seg = none := by
  by_cases hne : url = ""
  · subst hne
    simp [getResizedUrl] at h
  rw [getResizedUrl, if_neg hne] at h
  cases hinc : jsIncludes url s3Hostname with
  | false => rw [hinc] at h; simp at h
  | true =>
    rw [hinc] at h
    simp only [Bool.not_true] at h
    rw [if_neg (by decide)] at h
    split at h
    · rename_i p0 p1 heq
      split at h
      · rename_i heq2
        exact ⟨p0, p1, heq, mapDecode_none_exists _ heq2⟩
      · exact absurd h (by simp)
    · exact absurd h (by simp)

theorem getResizedUrl_none_implies_bad_escape_witness :
    ∃ p0 p1,
      jsSplit "https://ntmg-media.s3.us-west-1.amazonaws.com/a/%zz" (s3Hostname ++ "/") =
        [p0, p1] ∧
      ∃ seg ∈ jsSplit p1 "/", decodeURIComponent seg = none :=
  getResizedUrl_none_implies_bad_escape "https://ntmg-media.s3.us-west-1.amazonaws.com/a/%zz"
    ⟨⟨none, some 640, "cover"⟩⟩ (by decide)

/-- C1: for a well-formed storage URL — one splitting into exactly two
parts on `<storage-host>/` whose key segments all percent-decode — and
any edit request, the output is `<cdn-host>/<b64>`, where `<b64>` is the
base64 encoding of the UTF-8 bytes of the JSON text
`{bucket: "ntmg-media", key, edits: edit}` with `key` the key path split
on `/`, each segment decoded exactly once, rejoined with `/`; moreover
base64-decoding `<b64>` gives back exactly those UTF-8 JSON bytes. -/
theorem getResizedUrl_wellformed (url p0 p1 : String) (edit : ImageEditRequest)
    (segs : List String)
    (hsplit : jsSplit url (s3Hostname ++ "/") = [p0, p1])
    (hdec : mapDecode (jsSplit p1 "/") = some segs) :
    getResizedUrl url edit =
      some (cloudfrontHostname ++ "/" ++
        base64FromByteArray (utf8Encode
          (stringifyImageRequest s3BucketName (arrayJoin "/" segs) edit))) ∧
    base64DecodeChars (base64FromByteArray (utf8Encode
        (stringifyImageRequest s3BucketName (arrayJoin "/" segs) edit))).data =
      some (utf8Encode (stringifyImageRequest s3BucketName (arrayJoin "/" segs) edit)) := by
  have hne : url ≠ "" := ne_empty_of_split_pair url p0 p1 hsplit
  have hinc : jsIncludes url s3Hostname = true := jsIncludes_of_split_pair url p0 p1 hsplit
  constructor
  · rw [getResizedUrl, if_neg hne, hinc]
    simp only [Bool.not_true]
    rw [if_neg (by decide), hsplit]
    show (match mapDecode (jsSplit p1 "/") with
      | none => none
      | some decodedParts =>
        some (cloudfrontHostname ++ "/" ++
          base64FromByteArray (utf8Encode
            (stringifyImageRequest s3BucketName (arrayJoin "/" decodedParts) edit)))) =
      some (cloudfrontHostname ++ "/" ++
        base64FromByteArray (utf8Encode
          (stringifyImageRequest s3BucketName (arrayJoin "/" segs) edit)))
    rw [hdec]
  · exact base64_decode_encode _ (utf8Encode_lt _)

theorem getResizedUrl_wellformed_witness :
    jsSplit "https://ntmg-media.s3.us-west-1.amazonaws.com/a%2520b/c.png" (s3Hostname ++ "/") =
      ["https://", "a%2520b/c.png"] ∧
    mapDecode (jsSplit "a%2520b/c.png" "/") = some ["a%20b", "c.png"] ∧
    getResizedUrl "https://ntmg-media.s3.us-west-1.amazonaws.com/a%2520b/c.png"
        ⟨⟨none, some 640, "cover"⟩⟩ =
      some (cloudfrontHostname ++ "/" ++
        base64FromByteArray (utf8Encode
          (stringifyImageRequest s3BucketName "a%20b/c.png" ⟨⟨none, some 640, "cover"⟩⟩))) :=
  ⟨by decide, by decide,
   (getResizedUrl_wellformed "https://ntmg-media.s3.us-west-1.amazonaws.com/a%2520b/c.png"
      "https://" "a%2520b/c.png" ⟨⟨none, some 640, "cover"⟩⟩ ["a%20b", "c.png"]
      (by decide) (by decide)).1⟩

end ImageUi
